import Mathlib

/-!
Shallow embedding of the paper2gal script-generation pipeline
(`src/utils/script_engine.py`) and of the prefetch coordinator
(`src/app.py`), together with proofs about the frozen claims.

Strings are modelled with Lean `String` (a list of unicode scalar values,
matching Python `str` indexing by code point).  The regex character classes
`\s` and `\d` are modelled over their ASCII range, which covers every
character the patterns themselves name and every input exercised here.
-/

namespace Paper2Gal

/-- The whitespace class used by Python `str.strip()` and regex `\s`
(ASCII range). -/
def pyIsSpace (c : Char) : Bool :=
  c = ' ' || c = '\t' || c = '\n' || c = '\r' || c = Char.ofNat 11 || c = Char.ofNat 12

/-- Python `str.strip()` on a list of characters: drop leading and trailing
whitespace. -/
def pyStripList (l : List Char) : List Char :=
  ((l.dropWhile pyIsSpace).reverse.dropWhile pyIsSpace).reverse

/-- Python `str.strip()`. -/
def pyStrip (s : String) : String :=
  String.mk (pyStripList s.data)

/-- Python `str(o or "")` for an optional string field of a JSON object:
a missing field reads as the empty string. -/
def getStr (o : Option String) : String := o.getD ""

/-- Python `s or d` for strings: the empty string is falsy. -/
def pyOrStr (s d : String) : String := if s = "" then d else s

/-- `[A-Za-z]`. -/
def isAsciiLetter (c : Char) : Bool :=
  ('A' ≤ c && c ≤ 'Z') || ('a' ≤ c && c ≤ 'z')

/-- The opening brackets `[（(]` of the enumerator patterns. -/
def isOpenParen (c : Char) : Bool := c = '（' || c = '('

/-- The closing brackets `[）)]` of the enumerator patterns. -/
def isCloseParen (c : Char) : Bool := c = '）' || c = ')'

/-- The punctuation class `[\.\)、,:：]` of the enumerator patterns. -/
def isLabelPunct (c : Char) : Bool :=
  c = '.' || c = ')' || c = '、' || c = ',' || c = ':' || c = '：'

/-- Tail `\s*[）)]\s*` of the parenthesised-enumerator pattern: returns the
remainder after the match, or `none` when it does not match here. -/
def matchCloseParen (cs : List Char) : Option (List Char) :=
  match cs.dropWhile pyIsSpace with
  | c :: rest => if isCloseParen c then some (rest.dropWhile pyIsSpace) else none
  | [] => none

/-- After the opening bracket: `\s*(?:[A-Za-z]|\d{1,2})\s*[）)]\s*`, with the
one-step backtracking of the greedy `\d{1,2}`. -/
def matchParenBody (cs : List Char) : Option (List Char) :=
  match cs.dropWhile pyIsSpace with
  | c :: rest =>
    if isAsciiLetter c then matchCloseParen rest
    else if c.isDigit then
      match rest with
      | d :: rest2 =>
        if d.isDigit then
          match matchCloseParen rest2 with
          | some r => some r
          | none => matchCloseParen rest
        else matchCloseParen rest
      | [] => matchCloseParen rest
    else none
  | [] => none

/-- `re.sub(r"^\s*[（(]\s*(?:[A-Za-z]|\d{1,2})\s*[）)]\s*", "", text)`:
removes one leading parenthesised enumerator, if present converting
`(A) Foo` to `Foo`. -/
def stripParenEnum (s : String) : String :=
  match s.data.dropWhile pyIsSpace with
  | c :: rest =>
    if isOpenParen c then
      match matchParenBody rest with
      | some rem => String.mk rem
      | none => s
    else s
  | [] => s

/-- Tail `\s*[\.\)、,:：]\s*` of the bare-enumerator pattern. -/
def matchPunctTail (cs : List Char) : Option (List Char) :=
  match cs.dropWhile pyIsSpace with
  | c :: rest => if isLabelPunct c then some (rest.dropWhile pyIsSpace) else none
  | [] => none

/-- `re.sub(r"^\s*(?:[A-Za-z]|\d{1,2})\s*[\.\)、,:：]\s*", "", text)`:
removes one leading bare enumerator such as `A.` or `12、`, with the
one-step backtracking of the greedy `\d{1,2}`. -/
def stripPunctEnum (s : String) : String :=
  match s.data.dropWhile pyIsSpace with
  | c :: rest =>
    if isAsciiLetter c then
      match matchPunctTail rest with
      | some rem => String.mk rem
      | none => s
    else if c.isDigit then
      match rest with
      | d :: rest2 =>
        if d.isDigit then
          match matchPunctTail rest2 with
          | some r => String.mk r
          | none =>
            match matchPunctTail rest with
            | some r => String.mk r
            | none => s
        else
          match matchPunctTail rest with
          | some r => String.mk r
          | none => s
      | [] =>
        match matchPunctTail rest with
        | some r => String.mk r
        | none => s
    else s
  | [] => s

/-- One iteration of the enumerator-stripping loop body in
`_normalize_option_text`: both substitutions, each followed by `strip()`. -/
def stripEnumOnce (t : String) : String :=
  pyStrip (stripPunctEnum (pyStrip (stripParenEnum t)))

/-- The `for _ in range(3)` loop of `_normalize_option_text`: up to `n`
applications of `stripEnumOnce`, stopping early at a fixpoint. -/
def stripEnumLoop : Nat → String → String
  | 0, t => t
  | n + 1, t =>
    let t2 := stripEnumOnce t
    if t2 = t then t else stripEnumLoop n t2

/-- `ScriptGenerator._normalize_option_text`. -/
def normalizeOptionText (value : String) : String :=
  let text := pyStrip value
  if text = "" then ""
  else
    let r := stripEnumLoop 3 text
    if r = "" then pyStrip value else r

/-- Tail `[）)]?[\.\)、,:：]?\s*` of the label full-match patterns, with
regex backtracking over the two optional atoms (note `)` belongs to both
classes). -/
def labelTailMatch (cs : List Char) : Bool :=
  match cs with
  | [] => true
  | c :: rest =>
    (isCloseParen c &&
      (match rest with
       | [] => true
       | d :: r2 => (isLabelPunct d && r2.all pyIsSpace) || rest.all pyIsSpace))
    || (isLabelPunct c && rest.all pyIsSpace)
    || cs.all pyIsSpace

/-- Numeric value of an ASCII digit. -/
def digitVal (c : Char) : Nat := c.toNat - '0'.toNat

/-- `re.fullmatch(r"[（(]?\s*([A-Za-z])\s*[）)]?[\.\)、,:：]?\s*", s)` after
the optional opening bracket has been consumed: the captured letter mapped
to `ord(upper) - ord("A")`. -/
def letterLabelMatch (cs : List Char) : Option Int :=
  match cs with
  | c :: rest =>
    if isAsciiLetter c then
      if labelTailMatch (rest.dropWhile pyIsSpace) then
        some ((c.toUpper.toNat : Int) - ('A'.toNat : Int))
      else none
    else none
  | [] => none

/-- `re.fullmatch(r"[（(]?\s*(\d{1,2})\s*[）)]?[\.\)、,:：]?\s*", s)` after the
optional opening bracket: the captured 1–2 digit number minus one, with the
one-step backtracking of the greedy `\d{1,2}`. -/
def digitLabelMatch (cs : List Char) : Option Int :=
  match cs with
  | c :: rest =>
    if c.isDigit then
      match rest with
      | d :: r2 =>
        if d.isDigit then
          if labelTailMatch (r2.dropWhile pyIsSpace) then
            some ((10 * (digitVal c : Int) + (digitVal d : Int)) - 1)
          else if labelTailMatch (rest.dropWhile pyIsSpace) then
            some ((digitVal c : Int) - 1)
          else none
        else if labelTailMatch (rest.dropWhile pyIsSpace) then
          some ((digitVal c : Int) - 1)
        else none
      | [] => some ((digitVal c : Int) - 1)
    else none
  | [] => none

/-- `ScriptGenerator._option_label_to_index`. -/
def optionLabelToIndex (text : String) : Option Int :=
  match pyStripList text.data with
  | [] => none
  | c :: rest =>
    let cs := if isOpenParen c then rest.dropWhile pyIsSpace else c :: rest
    match letterLabelMatch cs with
    | some i => some i
    | none => digitLabelMatch cs

/-- `options[idx]` guarded by `0 <= idx < len(options)`. -/
def optAt (options : List String) (i : Int) : Option String :=
  if 0 ≤ i then options[i.toNat]? else none

/-- `ScriptGenerator._normalize_correct_answer`. -/
def normalizeCorrectAnswer (rawAnswer : String) (options : List String) : String :=
  match options with
  | [] => pyStrip rawAnswer
  | o0 :: _ =>
    let raw := pyStrip rawAnswer
    if raw = "" then o0
    else
      match (optionLabelToIndex raw).bind (optAt options) with
      | some o => o
      | none =>
        let cleaned := normalizeOptionText raw
        match (optionLabelToIndex cleaned).bind (optAt options) with
        | some o => o
        | none =>
          match options.find? (fun opt => cleaned = pyStrip opt) with
          | some opt => opt
          | none => if cleaned = "" then o0 else cleaned

/-- The fields `_normalize_script` reads from one decoded JSON object.
A missing field is `none`; values are modelled at string level (the Python
code passes every read field through `str(...)`), and `options` is `some`
exactly when the JSON value is a list. -/
structure RawItem where
  type : Option String := none
  title : Option String := none
  speaker : Option String := none
  text : Option String := none
  emotion : Option String := none
  question : Option String := none
  options : Option (List String) := none
  correct_answer : Option String := none
  feedback_correct : Option String := none
  feedback_wrong : Option String := none
  explanation : Option String := none
  prompt : Option String := none
deriving DecidableEq, Repr

/-- The four normalized output dictionaries built by `_normalize_script`
(and `_fallback_script`), as a tagged union.  Field order follows the dict
literals in the source. -/
inductive ScriptItem where
  | sub_head (title : String)
  | dialogue (speaker text emotion : String)
  | quiz (question : String) (options : List String)
      (correct_answer feedback_correct feedback_wrong explanation emotion : String)
  | choice (prompt : String) (options : List String) (emotion explanation : String)
deriving DecidableEq, Repr

/-- The closed emotion set of `_clamp_emotion`. -/
def emotionKeys : List String := ["char_normal", "char_happy", "char_angry", "char_shy"]

/-- `ScriptGenerator._clamp_emotion`. -/
def clampEmotion (emotion : Option String) : String :=
  let e := pyStrip (pyOrStr (getStr emotion) "char_normal")
  if emotionKeys.contains e then e else "char_normal"

/-- `ScriptGenerator._fallback_script`.  `extraHint` follows Python
truthiness: an empty hint string appends nothing.  The emotion alternates
on `chunk_index % 2` (Python `%`, i.e. `Int.emod`). -/
def fallbackScript (msg : String) (chunkIndex : Int) (extraHint : Option String) :
    List ScriptItem :=
  let text :=
    match extraHint with
    | some h => if h = "" then msg else msg ++ "\n\n（原文片段：" ++ h ++ "…）"
    | none => msg
  [ScriptItem.dialogue "奈奈" text (if chunkIndex % 2 ≠ 0 then "char_shy" else "char_normal")]

/-- The loop body of `_normalize_script` for one record of the input list:
`none` models a list entry that is not a JSON object (skipped), and a
`none` result models `continue` without emitting an item. -/
def normalizeItem (it : Option RawItem) : Option ScriptItem :=
  match it with
  | none => none
  | some r =>
    let t := pyStrip (getStr r.type)
    if t = "sub_head" then
      let title := pyStrip (getStr r.title)
      if title = "" then none else some (ScriptItem.sub_head title)
    else if t = "dialogue" then
      let speaker := pyStrip (pyOrStr (getStr r.speaker) "奈奈")
      let text := pyStrip (getStr r.text)
      let emotion := clampEmotion r.emotion
      if text = "" then none else some (ScriptItem.dialogue speaker text emotion)
    else if t = "quiz" then
      let q := pyStrip (getStr r.question)
      match r.options with
      | some opts =>
        if q = "" ∨ opts.length < 2 then none
        else
          let opts2 := opts.map normalizeOptionText
          let correct := normalizeCorrectAnswer (getStr r.correct_answer) opts2
          some (ScriptItem.quiz q opts2 correct
            (pyStrip (pyOrStr (getStr r.feedback_correct) "嗯哼，还行吧。"))
            (pyStrip (pyOrStr (getStr r.feedback_wrong) "笨蛋！再想想喵！"))
            (pyStrip (getStr r.explanation))
            (clampEmotion r.emotion))
      | none => none
    else if t = "choice" then
      let prompt := pyStrip (pyOrStr (getStr r.prompt) (pyOrStr (getStr r.question) "你选哪个？"))
      match r.options with
      | some opts =>
        if opts.length < 2 then none
        else
          some (ScriptItem.choice prompt (opts.map normalizeOptionText)
            (clampEmotion r.emotion) (pyStrip (getStr r.explanation)))
      | none => none
    else none

/-- The apology text of the empty-normalization fallback in
`_normalize_script`. -/
def hardcoreMsg : String := "这段写得太硬核了……我先用最普通的方式给你捋一遍喵。"

/-- `ScriptGenerator._normalize_script`: validate every record, then
substitute the one-item fallback (with sentinel chunk index `-1`) when
nothing survived. -/
def normalizeScript (items : List (Option RawItem)) : List ScriptItem :=
  let out := items.filterMap normalizeItem
  if out = [] then fallbackScript hardcoreMsg (-1) none else out

/-- A Python exception, identified by its type name (all the generator
observes of it). -/
structure PyErr where
  name : String
deriving DecidableEq, Repr

/-- The `（内部解析失败：...）` suffix appended to the exhausted-retries
message when `last_err` is set. -/
def errSuffix : Option PyErr → String
  | none => ""
  | some e => "\n（内部解析失败：" ++ e.name ++ "）"

/-- The base text of the exhausted-retries fallback message. -/
def failBaseMsg : String :=
  "唔……这段作者写得太绕了，我一时没把剧本整理成标准格式。我们先用简化版继续读下去喵！"

/-- The empty-chunk fallback message. -/
def emptyChunkMsg : String := "这一段好像是空的……你是不是上传了扫描版？"

/-- Python `s[:n]` (by code point). -/
def takeChars (n : Nat) (s : String) : String := String.mk (s.data.take n)

/-- The generator configuration relevant to `generate_script`
(`max_retries`, default 2). -/
structure GenConfig where
  maxRetries : Nat := 2
deriving DecidableEq, Repr

/-- One behaviour of the model backend for a whole run: attempt `n` either
raises an exception somewhere in `llm.invoke` / content extraction /
`_parse_json_list` (`Except.error`), or delivers the successfully parsed
JSON list (`Except.ok`).  Quantifying over all such oracles covers every
response text and every exception interleaving. -/
def ModelOracle := Nat → Except PyErr (List (Option RawItem))

/-- The `for _ in range(self.max_retries + 1)` loop of `generate_script`:
`fuel` is the number of attempts left, `k` the absolute attempt index, and
the second component tracks `last_err`. -/
def genAttempts (oracle : ModelOracle) :
    Nat → Nat → Option PyErr → Option (List ScriptItem) × Option PyErr
  | 0, _, lastErr => (none, lastErr)
  | n + 1, k, lastErr =>
    match oracle k with
    | Except.error e => genAttempts oracle n (k + 1) (some e)
    | Except.ok parsed =>
      let normalized := normalizeScript parsed
      if normalized = [] then genAttempts oracle n (k + 1) lastErr
      else (some normalized, lastErr)

/-- `ScriptGenerator.generate_script`.  The prompt built from `chunkText`,
`chunkIndex` and `sectionTitle` is consumed by the model, whose behaviour
is the oracle, so the prompt does not further affect the embedded result;
`sectionTitle` is kept for signature fidelity. -/
def generateScript (cfg : GenConfig) (oracle : ModelOracle) (chunkText : String)
    (chunkIndex : Int) (sectionTitle : Option String := none) : List ScriptItem :=
  let _ := sectionTitle
  let ct := pyStrip chunkText
  if ct = "" then fallbackScript emptyChunkMsg chunkIndex none
  else
    match genAttempts oracle (cfg.maxRetries + 1) 0 none with
    | (some s, _) => s
    | (none, lastErr) =>
      fallbackScript (failBaseMsg ++ errSuffix lastErr) chunkIndex (some (takeChars 260 ct))

/-- A text chunk as consumed by the prefetch coordinator in `src/app.py`
(`PdfChunk`: only its presence in the list matters to the coordinator's
control flow). -/
structure Chunk where
  index : Int
  text : String
  sectionTitle : Option String := none
deriving DecidableEq, Repr

/-- The prefetch-related slice of `st.session_state`.  Background tasks are
identified by the ghost counter `next_task_id` (ids handed out in launch
order), and a task's result is abstracted as its id so that provenance —
which launch a cached or returned script came from — is visible in the
model. -/
structure SState where
  prefetch_cache : List (Int × Nat)
  prefetch_future : Option Nat
  prefetch_target_idx : Option Int
  prefetch_task_run_token : Option Int
  script_run_token : Int
  next_task_id : Nat
deriving DecidableEq, Repr

/-- Python `int(x or -1)` on an optional stored token: both `None` and `0`
are falsy and read as `-1`. -/
def pyOrNeg1 : Option Int → Int
  | none => -1
  | some v => if v = 0 then -1 else v

/-- Dictionary lookup `k in cache` / `cache[k]`. -/
def cacheLookup (c : List (Int × Nat)) (k : Int) : Option Nat :=
  match c.find? (fun kv => kv.1 = k) with
  | some kv => some kv.2
  | none => none

/-- Dictionary update `cache[k] = v`. -/
def cacheInsert (c : List (Int × Nat)) (k : Int) (v : Nat) : List (Int × Nat) :=
  c.filter (fun kv => kv.1 ≠ k) ++ [(k, v)]

/-- Dictionary removal `cache.pop(k)`. -/
def cacheErase (c : List (Int × Nat)) (k : Int) : List (Int × Nat) :=
  c.filter (fun kv => kv.1 ≠ k)

/-- `_collect_prefetch_if_ready`.  `done` tells which task ids have
completed at this instant, `ok` whether a completed task returned normally
(`future.result()` raising models as `ok = false`, swallowed to `None`). -/
def collectPrefetchIfReady (done ok : Nat → Bool) (s : SState) : SState :=
  match s.prefetch_future, s.prefetch_target_idx with
  | some fid, some tgt =>
    if done fid then
      let script : Option Nat := if ok fid then some fid else none
      let s1 := { s with prefetch_future := none, prefetch_target_idx := none,
                         prefetch_task_run_token := none }
      match script with
      | none => s1
      | some sc =>
        if pyOrNeg1 s.prefetch_task_run_token ≠ s.script_run_token then s1
        else { s1 with prefetch_cache := cacheInsert s1.prefetch_cache tgt sc }
    else s
  | _, _ => s

/-- `_take_prefetched_script`: returns the updated state and the script
(task id) handed to the caller, if any. -/
def takePrefetched (chunkIdx : Int) (wait : Bool) (done ok : Nat → Bool)
    (s : SState) : SState × Option Nat :=
  let s1 := collectPrefetchIfReady done ok s
  match cacheLookup s1.prefetch_cache chunkIdx with
  | some sc => ({ s1 with prefetch_cache := cacheErase s1.prefetch_cache chunkIdx }, some sc)
  | none =>
    match s1.prefetch_future with
    | none => (s1, none)
    | some fid =>
      if s1.prefetch_target_idx ≠ some chunkIdx then (s1, none)
      else if pyOrNeg1 s1.prefetch_task_run_token ≠ s1.script_run_token then (s1, none)
      else if ¬wait ∧ ¬done fid then (s1, none)
      else
        ({ s1 with prefetch_future := none, prefetch_target_idx := none,
                   prefetch_task_run_token := none },
         if ok fid then some fid else none)

/-- The launch block of `_ensure_next_chunk_prefetch`: submit a fresh task
(ghost id `next_task_id`) and record its target index and run token. -/
def launchState (nextIdx : Int) (s1 : SState) : SState :=
  { s1 with
    prefetch_future := some s1.next_task_id,
    prefetch_target_idx := some nextIdx,
    prefetch_task_run_token := some s1.script_run_token,
    next_task_id := s1.next_task_id + 1 }

/-- `_ensure_next_chunk_prefetch`: possibly launches a fresh background
task for `currentChunkIdx + 1`. -/
def ensureNextChunkPrefetch (chunks : List Chunk) (currentChunkIdx : Int)
    (done ok : Nat → Bool) (s : SState) : SState :=
  let nextIdx := currentChunkIdx + 1
  if nextIdx < 0 ∨ (chunks.length : Int) ≤ nextIdx then s
  else
    let s1 := collectPrefetchIfReady done ok s
    if (cacheLookup s1.prefetch_cache nextIdx).isSome then s1
    else
      match s1.prefetch_future with
      | some fid =>
        if s1.prefetch_target_idx = some nextIdx ∧
            pyOrNeg1 s1.prefetch_task_run_token = s1.script_run_token then s1
        else if ¬done fid then s1
        else launchState nextIdx s1
      | none => launchState nextIdx s1

/-- `_clear_prefetch_buffer` (the `future.cancel()` call touches no session
state and is advisory, so it has no model effect). -/
def clearPrefetchBuffer (bumpRunToken : Bool) (s : SState) : SState :=
  let s1 := { s with prefetch_cache := [], prefetch_future := none,
                     prefetch_target_idx := none, prefetch_task_run_token := none }
  if bumpRunToken then { s1 with script_run_token := s.script_run_token + 1 } else s1

/-- The prefetch-relevant part of `_reset_session`:
`_clear_prefetch_buffer(bump_run_token=True)`. -/
def resetSession (s : SState) : SState := clearPrefetchBuffer true s

/-- One coordinator call.  Each call carries its own `done`/`ok` snapshot
of the world, so arbitrary interleavings of task completion with calls are
covered by quantifying over operation lists. -/
inductive PrefetchOp where
  | collect (done ok : Nat → Bool)
  | take (chunkIdx : Int) (wait : Bool) (done ok : Nat → Bool)
  | ensure (chunks : List Chunk) (currentChunkIdx : Int) (done ok : Nat → Bool)
  | reset

/-- Apply one coordinator call; the second component is the script (task
id) returned to the caller by `take`, if any. -/
def stepOp (s : SState) : PrefetchOp → SState × Option Nat
  | PrefetchOp.collect d o => (collectPrefetchIfReady d o s, none)
  | PrefetchOp.take c w d o => takePrefetched c w d o s
  | PrefetchOp.ensure ch c d o => (ensureNextChunkPrefetch ch c d o s, none)
  | PrefetchOp.reset => (resetSession s, none)

/-- Run a sequence of coordinator calls, collecting every script `take`
hands to a caller. -/
def runOps (s : SState) : List PrefetchOp → SState × List Nat
  | [] => (s, [])
  | op :: rest =>
    let r := stepOp s op
    let r2 := runOps r.1 rest
    (r2.1, (match r.2 with | some x => [x] | none => []) ++ r2.2)

/-- A record the normalizer accepts: recognized `type` and the variant's
required fields present and valid (non-empty title/text/question after
trimming, an options list of length ≥ 2). -/
@[reducible] def wellFormedRaw : Option RawItem → Prop
  | none => False
  | some r =>
    let t := pyStrip (getStr r.type)
    (t = "sub_head" ∧ pyStrip (getStr r.title) ≠ "") ∨
    (t = "dialogue" ∧ pyStrip (getStr r.text) ≠ "") ∨
    (t = "quiz" ∧ pyStrip (getStr r.question) ≠ "" ∧
      match r.options with | some l => 2 ≤ l.length | none => False) ∨
    (t = "choice" ∧ match r.options with | some l => 2 ≤ l.length | none => False)

/-- The per-variant required-field invariant of §3 of the spec. -/
@[reducible] def itemWellFormed : ScriptItem → Prop
  | ScriptItem.sub_head title => title ≠ ""
  | ScriptItem.dialogue _ text _ => text ≠ ""
  | ScriptItem.quiz question options _ _ _ _ _ => question ≠ "" ∧ 2 ≤ options.length
  | ScriptItem.choice _ options _ _ => 2 ≤ options.length

/-- Re-reading a normalized output dictionary as an input record (the keys
each output dict of `_normalize_script` / `_fallback_script` carries). -/
def toRaw : ScriptItem → RawItem
  | ScriptItem.sub_head title => { type := some "sub_head", title := some title }
  | ScriptItem.dialogue speaker text emotion =>
      { type := some "dialogue", speaker := some speaker, text := some text,
        emotion := some emotion }
  | ScriptItem.quiz question options correct fc fw ex emotion =>
      { type := some "quiz", question := some question, options := some options,
        correct_answer := some correct, feedback_correct := some fc,
        feedback_wrong := some fw, explanation := some ex, emotion := some emotion }
  | ScriptItem.choice prompt options emotion ex =>
      { type := some "choice", prompt := some prompt, options := some options,
        emotion := some emotion, explanation := some ex }

/-- Feed a normalized Script back into the normalizer as a record list. -/
def reFeed (out : List ScriptItem) : List (Option RawItem) :=
  out.map (fun it => some (toRaw it))

/-- An output item that one more normalization pass leaves unchanged:
no field that a re-fed pass would replace by a default (empty speaker,
feedback or prompt), no option text still carrying an enumerator prefix,
and a quiz answer that re-resolves to itself. -/
@[reducible] def stableItem : ScriptItem → Prop
  | ScriptItem.sub_head _ => True
  | ScriptItem.dialogue speaker _ _ => speaker ≠ ""
  | ScriptItem.quiz _ options correct fc fw _ _ =>
      fc ≠ "" ∧ fw ≠ "" ∧ (∀ o ∈ options, normalizeOptionText o = o) ∧
        normalizeCorrectAnswer correct (options.map normalizeOptionText) = correct
  | ScriptItem.choice prompt options _ _ =>
      prompt ≠ "" ∧ ∀ o ∈ options, normalizeOptionText o = o

/-- Structural facts every normalizer output item satisfies: string fields
are already trimmed, required fields non-empty, emotions in the enum. -/
def canonicalItem : ScriptItem → Prop
  | ScriptItem.sub_head title => pyStrip title = title ∧ title ≠ ""
  | ScriptItem.dialogue speaker text emotion =>
      pyStrip speaker = speaker ∧ pyStrip text = text ∧ text ≠ "" ∧ emotion ∈ emotionKeys
  | ScriptItem.quiz question options _ fc fw ex emotion =>
      pyStrip question = question ∧ question ≠ "" ∧ 2 ≤ options.length ∧
        pyStrip fc = fc ∧ pyStrip fw = fw ∧ pyStrip ex = ex ∧ emotion ∈ emotionKeys
  | ScriptItem.choice prompt options emotion ex =>
      pyStrip prompt = prompt ∧ 2 ≤ options.length ∧ emotion ∈ emotionKeys ∧
        pyStrip ex = ex

/-! ### Supporting lemmas -/

lemma dropWhile_idem (p : Char → Bool) (l : List Char) :
    (l.dropWhile p).dropWhile p = l.dropWhile p := by
  induction l with
  | nil => simp
  | cons a t ih =>
    by_cases h : p a
    · simp [List.dropWhile_cons, h, ih]
    · simp [List.dropWhile_cons, h]

lemma dropWhile_reverse_stripped (p : Char → Bool) (A : List Char)
    (hA : A.dropWhile p = A) :
    ((A.reverse.dropWhile p).reverse).dropWhile p = (A.reverse.dropWhile p).reverse := by
  cases A with
  | nil => simp
  | cons a t =>
    have hpa : p a = false := by
      by_contra h
      rw [List.dropWhile_cons, if_pos (by simpa using h)] at hA
      have := congrArg List.length hA
      have h2 : (t.dropWhile p).length ≤ t.length := (List.dropWhile_sublist p).length_le
      simp at this
      omega
    have hB : (a :: t).reverse.dropWhile p = t.reverse.dropWhile p ++ [a] := by
      rw [List.reverse_cons, List.dropWhile_append]
      by_cases hE : (t.reverse.dropWhile p).isEmpty
      · rw [if_pos hE, List.dropWhile_cons, if_neg (by simp [hpa])]
        simp at hE
        simpa using hE
      · rw [if_neg hE]
    rw [hB, List.reverse_append]
    simp only [List.reverse_cons, List.reverse_nil, List.nil_append, List.singleton_append]
    rw [List.dropWhile_cons, if_neg (by simp [hpa])]

lemma pyStripList_idem (l : List Char) : pyStripList (pyStripList l) = pyStripList l := by
  have h1 : (pyStripList l).dropWhile pyIsSpace = pyStripList l :=
    dropWhile_reverse_stripped pyIsSpace _ (dropWhile_idem _ _)
  have h2 : (pyStripList l).reverse.dropWhile pyIsSpace = (pyStripList l).reverse := by
    unfold pyStripList
    rw [List.reverse_reverse, dropWhile_idem]
  show (((pyStripList l).dropWhile pyIsSpace).reverse.dropWhile pyIsSpace).reverse
      = pyStripList l
  rw [h1, h2, List.reverse_reverse]

lemma pyStrip_idem (s : String) : pyStrip (pyStrip s) = pyStrip s :=
  congrArg String.mk (pyStripList_idem s.data)

lemma fallbackScript_length (msg : String) (i : Int) (h : Option String) :
    (fallbackScript msg i h).length = 1 := by
  simp [fallbackScript]

lemma normalizeScript_ne_nil (xs : List (Option RawItem)) : normalizeScript xs ≠ [] := by
  unfold normalizeScript
  by_cases h : xs.filterMap normalizeItem = []
  · simp [h, fallbackScript]
  · simp [h]

/-! ### C10 -/

/-- C10: for every option value whose string form is non-empty after
trimming, `_normalize_option_text` returns a non-empty string, and when the
enumerator-stripping loop would leave an empty string the original trimmed
text is returned unchanged instead. -/
theorem option_text_nonempty (v : String) (h : pyStrip v ≠ "") :
    normalizeOptionText v ≠ "" ∧
      (stripEnumLoop 3 (pyStrip v) = "" → normalizeOptionText v = pyStrip v) := by
  unfold normalizeOptionText
  simp only [if_neg h]
  by_cases h2 : stripEnumLoop 3 (pyStrip v) = ""
  · rw [if_pos h2]
    exact ⟨h, fun _ => rfl⟩
  · rw [if_neg h2]
    exact ⟨h2, fun hc => absurd hc h2⟩

/-- C10 witness: the option `"A."` consists only of a label; stripping it
would leave nothing, so the trimmed original is kept. -/
theorem option_text_nonempty_witness :
    pyStrip "A." ≠ "" ∧
      (normalizeOptionText "A." ≠ "" ∧
        (stripEnumLoop 3 (pyStrip "A.") = "" → normalizeOptionText "A." = pyStrip "A.")) :=
  ⟨by decide, option_text_nonempty "A." (by decide)⟩

/-! ### C7 -/

/-- C7: for an empty input list, and for every input list in which no
record survives validation, `_normalize_script` returns exactly the
one-item fallback Script: a single Dialogue with the fixed generic apology
text, built with sentinel chunk index `-1` (whose parity makes the emotion
`char_shy`), not with chunk-specific fallback text. -/
theorem normalize_empty_input_fallback (xs : List (Option RawItem))
    (h : ∀ it ∈ xs, normalizeItem it = none) :
    normalizeScript xs = fallbackScript hardcoreMsg (-1) none ∧
      normalizeScript xs = [ScriptItem.dialogue "奈奈" hardcoreMsg "char_shy"] := by
  have hout : xs.filterMap normalizeItem = [] := List.filterMap_eq_nil_iff.mpr h
  constructor
  · simp [normalizeScript, hout]
  · simp only [normalizeScript, hout, if_pos rfl]
    decide

/-- C7 witness: a list holding one unrecognized-type record and one
non-object entry normalizes to the fallback. -/
theorem normalize_empty_input_fallback_witness :
    (∀ it ∈ [some { type := some "mystery" : RawItem }, none],
        normalizeItem it = none) ∧
      normalizeScript [some { type := some "mystery" : RawItem }, none]
        = [ScriptItem.dialogue "奈奈" hardcoreMsg "char_shy"] :=
  ⟨by decide,
    (normalize_empty_input_fallback [some { type := some "mystery" : RawItem }, none]
      (by decide)).2⟩

/-! ### C6 -/

lemma wellFormedRaw_isSome (it : Option RawItem) (h : wellFormedRaw it) :
    (normalizeItem it).isSome := by
  cases it with
  | none => exact absurd h id
  | some r =>
    rcases h with ⟨ht, hx⟩ | ⟨ht, hx⟩ | ⟨ht, hq, hx⟩ | ⟨ht, hx⟩
    · simp [normalizeItem, ht, hx]
    · simp [normalizeItem, ht, hx]
    · cases hopt : r.options with
      | none => rw [hopt] at hx; exact absurd hx id
      | some l =>
        rw [hopt] at hx
        simp [normalizeItem, ht, hopt, hq, Nat.not_lt.mpr hx]
    · cases hopt : r.options with
      | none => rw [hopt] at hx; exact absurd hx id
      | some l =>
        rw [hopt] at hx
        simp [normalizeItem, ht, hopt, Nat.not_lt.mpr hx]

lemma normalizeItem_wellFormed (it : Option RawItem) (y : ScriptItem)
    (h : normalizeItem it = some y) : itemWellFormed y := by
  cases it with
  | none => simp [normalizeItem] at h
  | some r =>
    simp only [normalizeItem] at h
    by_cases h1 : pyStrip (getStr r.type) = "sub_head"
    · rw [if_pos h1] at h
      by_cases h2 : pyStrip (getStr r.title) = ""
      · rw [if_pos h2] at h; cases h
      · rw [if_neg h2] at h
        cases h
        exact h2
    · rw [if_neg h1] at h
      by_cases h2 : pyStrip (getStr r.type) = "dialogue"
      · rw [if_pos h2] at h
        by_cases h3 : pyStrip (getStr r.text) = ""
        · rw [if_pos h3] at h; cases h
        · rw [if_neg h3] at h
          cases h
          exact h3
      · rw [if_neg h2] at h
        by_cases h3 : pyStrip (getStr r.type) = "quiz"
        · rw [if_pos h3] at h
          cases hopt : r.options with
          | none => rw [hopt] at h; cases h
          | some l =>
            rw [hopt] at h
            by_cases h4 : pyStrip (getStr r.question) = "" ∨ l.length < 2
            · simp only [if_pos h4] at h
              cases h
            · simp only [if_neg h4] at h
              cases h
              push_neg at h4
              exact ⟨h4.1, by simpa using h4.2⟩
        · rw [if_neg h3] at h
          by_cases h4 : pyStrip (getStr r.type) = "choice"
          · rw [if_pos h4] at h
            cases hopt : r.options with
            | none => rw [hopt] at h; cases h
            | some l =>
              rw [hopt] at h
              by_cases h5 : l.length < 2
              · simp only [if_pos h5] at h
                cases h
              · simp only [if_neg h5] at h
                cases h
                simpa [itemWellFormed] using Nat.not_lt.mp h5
          · rw [if_neg h4] at h; cases h

/-- C6: whenever the input list contains at least one well-formed record,
`_normalize_script` does not fall back: its output is at most as long as
the input and every output item satisfies its variant's required-field
invariant (non-empty title/text/question, at least 2 options). -/
theorem normalize_wellformed_length_invariants (xs : List (Option RawItem))
    (h : ∃ it ∈ xs, wellFormedRaw it) :
    (normalizeScript xs).length ≤ xs.length ∧
      ∀ item ∈ normalizeScript xs, itemWellFormed item := by
  obtain ⟨it, hmem, hwf⟩ := h
  obtain ⟨y, hy⟩ := Option.isSome_iff_exists.mp (wellFormedRaw_isSome it hwf)
  have hne : xs.filterMap normalizeItem ≠ [] := by
    intro hnil
    have hnone := List.filterMap_eq_nil_iff.mp hnil it hmem
    rw [hy] at hnone
    cases hnone
  have hns : normalizeScript xs = xs.filterMap normalizeItem := by
    simp [normalizeScript, hne]
  refine ⟨?_, ?_⟩
  · rw [hns]
    exact List.length_filterMap_le _ _
  · rw [hns]
    intro item hitem
    obtain ⟨x, _, hxy⟩ := List.mem_filterMap.mp hitem
    exact normalizeItem_wellFormed x item hxy

/-- C6 witness: one malformed record, one well-formed quiz. -/
theorem normalize_wellformed_length_invariants_witness :
    (∃ it ∈ [some { type := some "quiz" : RawItem },
        some { type := some "quiz", question := some "Q?",
               options := some ["(A) Foo", "(B) Bar"], correct_answer := some "B" : RawItem }],
      wellFormedRaw it) ∧
    ((normalizeScript [some { type := some "quiz" : RawItem },
        some { type := some "quiz", question := some "Q?",
               options := some ["(A) Foo", "(B) Bar"], correct_answer := some "B" : RawItem }]).length
      ≤ 2 ∧
      ∀ item ∈ normalizeScript [some { type := some "quiz" : RawItem },
        some { type := some "quiz", question := some "Q?",
               options := some ["(A) Foo", "(B) Bar"], correct_answer := some "B" : RawItem }],
        itemWellFormed item) :=
  ⟨⟨_, List.mem_cons_of_mem _ (List.mem_cons_self _ _), by decide⟩,
    normalize_wellformed_length_invariants _
      ⟨_, List.mem_cons_of_mem _ (List.mem_cons_self _ _), by decide⟩⟩

/-! ### C1 -/

/-- C1 counterexample: the raw answer `"Baz"` matches no label and no
option of `["Foo", "Bar"]`, yet `_normalize_correct_answer` returns it
verbatim instead of substituting the first option, so the resulting
`correct_answer` is not an entry of the options list. -/
theorem correct_answer_not_in_options_cex :
    normalizeCorrectAnswer "Baz" ["Foo", "Bar"] = "Baz" ∧
      "Baz" ∉ (["Foo", "Bar"] : List String) := by
  constructor
  · rfl
  · decide

/-- C1 amended: for a non-empty options list, the normalized answer either
is an entry of the options (this covers the label and literal match paths,
and the empty-raw and empty-cleaned paths where the first option is
substituted), or it is the non-empty cleaned raw answer returned verbatim,
which need not appear among the options. -/
theorem correct_answer_membership_amended (rawAnswer o0 : String) (rest : List String) :
    (normalizeCorrectAnswer rawAnswer (o0 :: rest) ∈ o0 :: rest ∨
      (normalizeCorrectAnswer rawAnswer (o0 :: rest)
          = normalizeOptionText (pyStrip rawAnswer) ∧
        normalizeOptionText (pyStrip rawAnswer) ≠ "")) ∧
    (pyStrip rawAnswer = "" → normalizeCorrectAnswer rawAnswer (o0 :: rest) = o0) := by
  have hopts : ∀ i o, optAt (o0 :: rest) i = some o → o ∈ o0 :: rest := by
    intro i o h
    unfold optAt at h
    by_cases h0 : 0 ≤ i
    · rw [if_pos h0] at h
      exact List.getElem?_mem h
    · rw [if_neg h0] at h
      cases h
  unfold normalizeCorrectAnswer
  by_cases hr : pyStrip rawAnswer = ""
  · simp only [if_pos hr]
    exact ⟨Or.inl (List.mem_cons_self _ _), fun _ => trivial⟩
  · simp only [if_neg hr]
    refine ⟨?_, fun hc => absurd hc hr⟩
    cases hb1 : (optionLabelToIndex (pyStrip rawAnswer)).bind (optAt (o0 :: rest)) with
    | some o =>
      obtain ⟨i, _, hat⟩ := Option.bind_eq_some.mp hb1
      exact Or.inl (hopts i o hat)
    | none =>
      cases hb2 : (optionLabelToIndex
          (normalizeOptionText (pyStrip rawAnswer))).bind (optAt (o0 :: rest)) with
      | some o =>
        obtain ⟨i, _, hat⟩ := Option.bind_eq_some.mp hb2
        exact Or.inl (hopts i o hat)
      | none =>
        cases hf : (o0 :: rest).find?
            (fun opt => normalizeOptionText (pyStrip rawAnswer) = pyStrip opt) with
        | some opt => exact Or.inl (List.mem_of_find?_eq_some hf)
        | none =>
          by_cases hcl : normalizeOptionText (pyStrip rawAnswer) = ""
          · simp only [hb1, hb2, hf, if_pos hcl]
            exact Or.inl (List.mem_cons_self _ _)
          · simp only [hb1, hb2, hf, if_neg hcl]
            exact Or.inr ⟨trivial, hcl⟩

/-! ### C2 -/

lemma genAttempts_some_ne_nil (oracle : ModelOracle) :
    ∀ fuel k le s le2, genAttempts oracle fuel k le = (some s, le2) → s ≠ [] := by
  intro fuel
  induction fuel with
  | zero =>
    intro k le s le2 h
    simp [genAttempts] at h
  | succ n ih =>
    intro k le s le2 h
    unfold genAttempts at h
    cases ho : oracle k with
    | error e =>
      rw [ho] at h
      exact ih _ _ _ _ h
    | ok parsed =>
      rw [ho] at h
      by_cases hn : normalizeScript parsed = []
      · simp only [if_pos hn] at h
        exact ih _ _ _ _ h
      · simp only [if_neg hn] at h
        cases h
        exact hn

/-- C2: for every chunk text, chunk index, section title, and every model
behaviour (any parsed response or any exception on any attempt),
`generate_script` is a total function — no exception escapes — and its
result is a playable Script with at least one item. -/
theorem generate_script_total_nonempty (cfg : GenConfig) (oracle : ModelOracle)
    (chunkText : String) (chunkIndex : Int) (sectionTitle : Option String) :
    1 ≤ (generateScript cfg oracle chunkText chunkIndex sectionTitle).length := by
  unfold generateScript
  by_cases hc : pyStrip chunkText = ""
  · simp [hc, fallbackScript_length]
  · simp only [if_neg hc]
    rcases hg : genAttempts oracle (cfg.maxRetries + 1) 0 none with ⟨os, le⟩
    cases os with
    | some s =>
      have : s ≠ [] := genAttempts_some_ne_nil oracle _ _ _ _ _ hg
      simpa [hg, Nat.one_le_iff_ne_zero] using fun h0 => this (List.length_eq_zero.mp h0)
    | none => simp [hg, fallbackScript_length]

/-! ### C4 -/

/-- C4 counterexample: the first attempt parses successfully to an empty
JSON list, whose normalization is "empty" in the spec's sense; the claim
says this is treated as a failure and retried (the second attempt would
deliver a good dialogue), but `generate_script` instead returns the
normalizer's own substituted fallback immediately on the first attempt. -/
theorem empty_normalization_no_retry_cex :
    generateScript ⟨2⟩
        (fun n => if n = 0 then Except.ok [] else
          Except.ok [some { type := some "dialogue", text := some "好的" }])
        "hello" 0 none
      = [ScriptItem.dialogue "奈奈" hardcoreMsg "char_shy"] ∧
    normalizeScript [some { type := some "dialogue", text := some "好的" }]
      = [ScriptItem.dialogue "奈奈" "好的" "char_normal"] ∧
    [ScriptItem.dialogue "奈奈" hardcoreMsg "char_shy"]
      ≠ [ScriptItem.dialogue "奈奈" "好的" "char_normal"] := by
  refine ⟨by decide, by decide, by decide⟩

lemma genAttempts_first_ok (oracle : ModelOracle) (xs : List (Option RawItem)) :
    ∀ j fuel k le, j < fuel →
      (∀ i, k ≤ i → i < k + j → ∃ e, oracle i = Except.error e) →
      oracle (k + j) = Except.ok xs →
      (genAttempts oracle fuel k le).1 = some (normalizeScript xs) := by
  intro j
  induction j with
  | zero =>
    intro fuel k le hfuel herr hok
    cases fuel with
    | zero => omega
    | succ n =>
      unfold genAttempts
      rw [Nat.add_zero] at hok
      rw [hok]
      simp only [if_neg (normalizeScript_ne_nil xs)]
  | succ j ih =>
    intro fuel k le hfuel herr hok
    cases fuel with
    | zero => omega
    | succ n =>
      obtain ⟨e, he⟩ := herr k (Nat.le_refl k) (by omega)
      unfold genAttempts
      rw [he]
      have hok2 : oracle (k + 1 + j) = Except.ok xs := by
        rw [show k + 1 + j = k + (j + 1) by omega]
        exact hok
      refine ih n (k + 1) (some e) (by omega) ?_ hok2
      intro i h1 h2
      exact herr i (by omega) (by omega)

/-- C4 amended: an attempt whose model call and JSON-list extraction
succeed ends the retry loop at once — `generate_script` returns that
attempt's normalization (which is the normalizer's substituted one-item
fallback when nothing survived), so an empty normalization result is never
retried; only attempts that raise are retried, up to `max_retries` extra
attempts. -/
theorem first_parse_success_returns_immediately (cfg : GenConfig) (oracle : ModelOracle)
    (chunkText : String) (chunkIndex : Int) (sectionTitle : Option String)
    (k : Nat) (xs : List (Option RawItem))
    (hct : pyStrip chunkText ≠ "") (hk : k ≤ cfg.maxRetries)
    (herr : ∀ i, i < k → ∃ e, oracle i = Except.error e)
    (hok : oracle k = Except.ok xs) :
    generateScript cfg oracle chunkText chunkIndex sectionTitle = normalizeScript xs := by
  unfold generateScript
  simp only [if_neg hct]
  have h1 : (genAttempts oracle (cfg.maxRetries + 1) 0 none).1 = some (normalizeScript xs) := by
    refine genAttempts_first_ok oracle xs k (cfg.maxRetries + 1) 0 none (by omega) ?_
      (by rw [Nat.zero_add]; exact hok)
    intro i _ h2
    exact herr i (by omega)
  rcases hg : genAttempts oracle (cfg.maxRetries + 1) 0 none with ⟨os, le⟩
  rw [hg] at h1
  simp at h1
  subst h1
  rfl

/-- C4 amended witness: one malformed attempt, then a parse that survives
as an empty list — the result is attempt 1's normalization (the
normalizer's fallback), not a further retry. -/
theorem first_parse_success_returns_immediately_witness :
    pyStrip "hi" ≠ "" ∧ (1 : Nat) ≤ 2 ∧
      generateScript ⟨2⟩
          (fun n => if n = 0 then Except.error ⟨"ValueError"⟩ else Except.ok [])
          "hi" 0 none
        = normalizeScript [] :=
  ⟨by decide, by decide,
    first_parse_success_returns_immediately ⟨2⟩ _ "hi" 0 none 1 []
      (by decide) (by decide)
      (fun i hi => ⟨⟨"ValueError"⟩, by interval_cases i; rfl⟩)
      rfl⟩

/-! ### C8 -/

lemma genAttempts_all_err (oracle : ModelOracle) (errs : Nat → PyErr)
    (h : ∀ i, oracle i = Except.error (errs i)) :
    ∀ fuel k le, 1 ≤ fuel →
      genAttempts oracle fuel k le = (none, some (errs (k + fuel - 1))) := by
  intro fuel
  induction fuel with
  | zero => omega
  | succ n ih =>
    intro k le _
    unfold genAttempts
    simp only [h k]
    cases n with
    | zero => simp [genAttempts]
    | succ m =>
      rw [show k + (m + 1 + 1) - 1 = k + 1 + (m + 1) - 1 from by omega]
      exact ih (k + 1) (some (errs k)) (by omega)

lemma takeChars_ne_empty (n : Nat) (s : String) (hn : 0 < n) (hs : s ≠ "") :
    takeChars n s ≠ "" := by
  unfold takeChars
  intro h
  have hdata : s.data.take n = [] := congrArg String.data h
  rcases List.take_eq_nil_iff.mp hdata with h1 | h2
  · omega
  · exact hs (by cases s; simp_all)

/-- C8: for a chunk whose trimmed text is non-empty, when every attempt
fails the result is a single Dialogue whose text is the apology message,
the name of the last attempt's exception, and the first 260 characters of
the (trimmed) chunk text as a hint, with emotion chosen by chunk-index
parity: `char_normal` for even, `char_shy` for odd. -/
theorem exhausted_attempts_fallback (cfg : GenConfig) (oracle : ModelOracle)
    (chunkText : String) (chunkIndex : Int) (sectionTitle : Option String)
    (errs : Nat → PyErr)
    (hct : pyStrip chunkText ≠ "")
    (herr : ∀ i, oracle i = Except.error (errs i)) :
    generateScript cfg oracle chunkText chunkIndex sectionTitle =
      [ScriptItem.dialogue "奈奈"
        ((failBaseMsg ++ ("\n（内部解析失败：" ++ (errs cfg.maxRetries).name ++ "）"))
          ++ ("\n\n（原文片段：" ++ takeChars 260 (pyStrip chunkText) ++ "…）"))
        (if chunkIndex % 2 ≠ 0 then "char_shy" else "char_normal")] := by
  unfold generateScript
  simp only [if_neg hct]
  rw [genAttempts_all_err oracle errs herr (cfg.maxRetries + 1) 0 none (by omega)]
  rw [show (0 + (cfg.maxRetries + 1) - 1 : Nat) = cfg.maxRetries from by omega]
  have hhint : takeChars 260 (pyStrip chunkText) ≠ "" :=
    takeChars_ne_empty 260 (pyStrip chunkText) (by omega) hct
  simp only [fallbackScript, errSuffix, if_neg hhint, String.append_assoc]

/-- C8 witness: three failing attempts on chunk `"abc"` at odd index 1. -/
theorem exhausted_attempts_fallback_witness :
    pyStrip "abc" ≠ "" ∧
      generateScript ⟨2⟩ (fun _ => Except.error ⟨"ValueError"⟩) "abc" 1 none =
        [ScriptItem.dialogue "奈奈"
          ((failBaseMsg ++ ("\n（内部解析失败：" ++ (PyErr.mk "ValueError").name ++ "）"))
            ++ ("\n\n（原文片段：" ++ takeChars 260 (pyStrip "abc") ++ "…）"))
          (if (1 : Int) % 2 ≠ 0 then "char_shy" else "char_normal")] :=
  ⟨by decide,
    exhausted_attempts_fallback ⟨2⟩ _ "abc" 1 none (fun _ => ⟨"ValueError"⟩)
      (by decide) (fun i => rfl)⟩

/-! ### C9 -/

instance (it : ScriptItem) : Decidable (stableItem it) := by
  cases it <;> exact inferInstance

/-- C9 counterexample: an option whose text carries four stacked enumerator
prefixes is only partially cleaned by the 3-pass loop, so re-feeding the
normalized Script strips one more prefix and the result differs. -/
theorem normalize_not_idempotent_cex :
    normalizeScript (reFeed (normalizeScript
        [some { type := some "choice", prompt := some "选一个",
                options := some ["A. B. C. D. x", "y"], explanation := some "解析" }]))
      ≠ normalizeScript
        [some { type := some "choice", prompt := some "选一个",
                options := some ["A. B. C. D. x", "y"], explanation := some "解析" }] := by
  decide

lemma map_id_of_mem {α : Type} (l : List α) (f : α → α) (h : ∀ x ∈ l, f x = x) :
    l.map f = l := by
  induction l with
  | nil => rfl
  | cons a t ih =>
    rw [List.map_cons, h a (List.mem_cons_self a t),
      ih fun x hx => h x (List.mem_cons_of_mem a hx)]

lemma filterMap_some_of_mem {α : Type} (l : List α) (f : α → Option α)
    (h : ∀ x ∈ l, f x = some x) : l.filterMap f = l := by
  induction l with
  | nil => rfl
  | cons a t ih =>
    rw [List.filterMap_cons, h a (List.mem_cons_self a t),
      ih fun x hx => h x (List.mem_cons_of_mem a hx)]

lemma clampEmotion_mem (e : Option String) : clampEmotion e ∈ emotionKeys := by
  unfold clampEmotion
  by_cases h : emotionKeys.contains (pyStrip (pyOrStr (getStr e) "char_normal"))
  · rw [if_pos h]
    exact List.mem_of_elem_eq_true h
  · rw [if_neg h]
    decide

lemma clampEmotion_of_mem (em : String) (h : em ∈ emotionKeys) :
    clampEmotion (some em) = em := by
  have h1 : em ≠ "" ∧ pyStrip em = em := by
    fin_cases h <;> exact ⟨by decide, by decide⟩
  unfold clampEmotion
  simp only [getStr, Option.getD_some, pyOrStr, if_neg h1.1, h1.2]
  rw [if_pos (List.elem_eq_true_of_mem h)]

lemma normalizeItem_canonical (it : Option RawItem) (y : ScriptItem)
    (h : normalizeItem it = some y) : canonicalItem y := by
  cases it with
  | none => simp [normalizeItem] at h
  | some r =>
    simp only [normalizeItem] at h
    by_cases h1 : pyStrip (getStr r.type) = "sub_head"
    · rw [if_pos h1] at h
      by_cases h2 : pyStrip (getStr r.title) = ""
      · rw [if_pos h2] at h; cases h
      · rw [if_neg h2] at h
        cases h
        exact ⟨pyStrip_idem _, h2⟩
    · rw [if_neg h1] at h
      by_cases h2 : pyStrip (getStr r.type) = "dialogue"
      · rw [if_pos h2] at h
        by_cases h3 : pyStrip (getStr r.text) = ""
        · rw [if_pos h3] at h; cases h
        · rw [if_neg h3] at h
          cases h
          exact ⟨pyStrip_idem _, pyStrip_idem _, h3, clampEmotion_mem _⟩
      · rw [if_neg h2] at h
        by_cases h3 : pyStrip (getStr r.type) = "quiz"
        · rw [if_pos h3] at h
          cases hopt : r.options with
          | none => rw [hopt] at h; cases h
          | some l =>
            rw [hopt] at h
            by_cases h4 : pyStrip (getStr r.question) = "" ∨ l.length < 2
            · simp only [if_pos h4] at h
              cases h
            · simp only [if_neg h4] at h
              cases h
              push_neg at h4
              exact ⟨pyStrip_idem _, h4.1, by simpa using h4.2, pyStrip_idem _,
                pyStrip_idem _, pyStrip_idem _, clampEmotion_mem _⟩
        · rw [if_neg h3] at h
          by_cases h4 : pyStrip (getStr r.type) = "choice"
          · rw [if_pos h4] at h
            cases hopt : r.options with
            | none => rw [hopt] at h; cases h
            | some l =>
              rw [hopt] at h
              by_cases h5 : l.length < 2
              · simp only [if_pos h5] at h
                cases h
              · simp only [if_neg h5] at h
                cases h
                exact ⟨pyStrip_idem _, by simpa using Nat.not_lt.mp h5,
                  clampEmotion_mem _, pyStrip_idem _⟩
          · rw [if_neg h4] at h; cases h

lemma normalizeScript_canonical (xs : List (Option RawItem)) :
    ∀ it ∈ normalizeScript xs, canonicalItem it := by
  intro it hit
  unfold normalizeScript at hit
  by_cases hnil : xs.filterMap normalizeItem = []
  · rw [if_pos hnil] at hit
    have : it = ScriptItem.dialogue "奈奈" hardcoreMsg "char_shy" := by
      simpa [fallbackScript] using hit
    rw [this]
    refine ⟨by decide, by decide, by decide, by decide⟩
  · rw [if_neg hnil] at hit
    obtain ⟨x, _, hxy⟩ := List.mem_filterMap.mp hit
    exact normalizeItem_canonical x it hxy

lemma normalizeItem_reconstruct (it : ScriptItem)
    (hc : canonicalItem it) (hs : stableItem it) :
    normalizeItem (some (toRaw it)) = some it := by
  cases it with
  | sub_head title =>
    obtain ⟨hstrip, hne⟩ := hc
    simp only [normalizeItem, toRaw, getStr, Option.getD_some]
    rw [show pyStrip "sub_head" = "sub_head" from by decide]
    simp [hstrip, hne]
  | dialogue speaker text emotion =>
    obtain ⟨hsp, htx, hne, hem⟩ := hc
    have hspne : speaker ≠ "" := hs
    simp only [normalizeItem, toRaw, getStr, Option.getD_some]
    rw [show pyStrip "dialogue" = "dialogue" from by decide]
    simp [pyOrStr, hspne, hsp, htx, hne, clampEmotion_of_mem emotion hem]
  | quiz question options correct fc fw ex emotion =>
    obtain ⟨hq, hqne, hlen, hfc, hfw, hex, hem⟩ := hc
    obtain ⟨hfcne, hfwne, hopts, hcorr⟩ := hs
    have hmap : options.map normalizeOptionText = options := map_id_of_mem _ _ hopts
    have hcorr2 : normalizeCorrectAnswer correct options = correct := by
      rw [hmap] at hcorr
      exact hcorr
    have hguard : ¬(question = "" ∨ options.length < 2) := by
      push_neg
      exact ⟨hqne, by omega⟩
    simp only [normalizeItem, toRaw, getStr, Option.getD_some]
    rw [show pyStrip "quiz" = "quiz" from by decide]
    simp [hq, hguard, hmap, hcorr2, pyOrStr, hfcne, hfwne, hfc, hfw, hex,
      clampEmotion_of_mem emotion hem]
  | choice prompt options emotion ex =>
    obtain ⟨hp, hlen, hem, hex⟩ := hc
    obtain ⟨hpne, hopts⟩ := hs
    have hmap : options.map normalizeOptionText = options := map_id_of_mem _ _ hopts
    have hguard : ¬(options.length < 2) := by omega
    simp only [normalizeItem, toRaw, getStr, Option.getD_some]
    rw [show pyStrip "choice" = "choice" from by decide]
    simp [hguard, pyOrStr, hpne, hp, hmap, hex, clampEmotion_of_mem emotion hem]

/-- C9 amended: normalization is idempotent on every input whose normalized
output is stable under one more pass — no option text that a further
enumerator strip would change, no quiz answer that re-resolves to a
different option, and no empty speaker/feedback/prompt field (which a
re-feed would replace with its default).  The counterexample shows the
unconditional claim fails precisely at such unstable fields. -/
theorem normalize_idempotent_on_stable (xs : List (Option RawItem))
    (h : ∀ it ∈ normalizeScript xs, stableItem it) :
    normalizeScript (reFeed (normalizeScript xs)) = normalizeScript xs := by
  have hrec : ∀ it ∈ normalizeScript xs, normalizeItem (some (toRaw it)) = some it :=
    fun it hit => normalizeItem_reconstruct it (normalizeScript_canonical xs it hit) (h it hit)
  have hfm : (reFeed (normalizeScript xs)).filterMap normalizeItem = normalizeScript xs := by
    unfold reFeed
    rw [List.filterMap_map]
    exact filterMap_some_of_mem _ _ hrec
  have hdef : normalizeScript (reFeed (normalizeScript xs))
      = if (reFeed (normalizeScript xs)).filterMap normalizeItem = []
        then fallbackScript hardcoreMsg (-1) none
        else (reFeed (normalizeScript xs)).filterMap normalizeItem := rfl
  rw [hdef, hfm, if_neg (normalizeScript_ne_nil xs)]

/-- C9 amended witness: a dialogue-only script is stable, and re-feeding it
reproduces it exactly. -/
theorem normalize_idempotent_on_stable_witness :
    (∀ it ∈ normalizeScript [some { type := some "dialogue", text := some "你好" : RawItem }],
        stableItem it) ∧
      normalizeScript (reFeed (normalizeScript
          [some { type := some "dialogue", text := some "你好" : RawItem }]))
        = normalizeScript [some { type := some "dialogue", text := some "你好" : RawItem }] :=
  ⟨by decide, normalize_idempotent_on_stable _ (by decide)⟩

/-! ### C3 -/

/-- All task ids reachable from the state (cached scripts and the pending
future) are at least `b`, and ids below `b` will never be handed out
again. -/
def TaskBound (b : Nat) (s : SState) : Prop :=
  (∀ kv ∈ s.prefetch_cache, b ≤ kv.2) ∧
  (∀ fid, s.prefetch_future = some fid → b ≤ fid) ∧
  b ≤ s.next_task_id

lemma mem_cacheInsert (c : List (Int × Nat)) (k : Int) (v : Nat) (kv : Int × Nat)
    (h : kv ∈ cacheInsert c k v) : kv ∈ c ∨ kv = (k, v) := by
  unfold cacheInsert at h
  rcases List.mem_append.mp h with h1 | h1
  · exact Or.inl (List.mem_of_mem_filter h1)
  · exact Or.inr (by simpa using h1)

lemma taskBound_collect (b : Nat) (d o : Nat → Bool) (s : SState)
    (h : TaskBound b s) : TaskBound b (collectPrefetchIfReady d o s) := by
  obtain ⟨h1, h2, h3⟩ := h
  unfold collectPrefetchIfReady
  rcases hf : s.prefetch_future with _ | fid
  · exact ⟨h1, fun fid hfid => h2 fid (hf ▸ hfid), h3⟩
  · rcases ht : s.prefetch_target_idx with _ | tgt
    · exact ⟨h1, h2, h3⟩
    · by_cases hd : d fid
      · by_cases ho : o fid
        · simp only [hd, ho, if_true]
          by_cases htok : pyOrNeg1 s.prefetch_task_run_token ≠ s.script_run_token
          · simp only [if_pos htok]
            exact ⟨h1, by simp, h3⟩
          · simp only [if_neg htok]
            refine ⟨?_, by simp, h3⟩
            intro kv hkv
            rcases mem_cacheInsert _ _ _ _ hkv with hm | he
            · exact h1 kv hm
            · rw [he]
              exact h2 fid hf
        · simp only [hd, ho, if_true, if_false]
          exact ⟨h1, by simp, h3⟩
      · simp only [hd, if_false]
        exact ⟨h1, h2, h3⟩

lemma cacheLookup_bound (b : Nat) (c : List (Int × Nat)) (k : Int) (v : Nat)
    (hb : ∀ kv ∈ c, b ≤ kv.2) (h : cacheLookup c k = some v) : b ≤ v := by
  unfold cacheLookup at h
  cases hf : c.find? (fun kv => kv.1 = k) with
  | none =>
    rw [hf] at h
    cases h
  | some kv =>
    rw [hf] at h
    cases h
    exact hb kv (List.mem_of_find?_eq_some hf)

lemma taskBound_take (b : Nat) (c : Int) (w : Bool) (d o : Nat → Bool) (s : SState)
    (h : TaskBound b s) :
    TaskBound b (takePrefetched c w d o s).1 ∧
      (∀ x, (takePrefetched c w d o s).2 = some x → b ≤ x) := by
  have h1 := taskBound_collect b d o s h
  obtain ⟨hc, hfut, hnext⟩ := h1
  simp only [takePrefetched]
  split
  next sc heq =>
    constructor
    · exact ⟨fun kv hkv => hc kv (List.mem_of_mem_filter hkv), hfut, hnext⟩
    · intro x hx
      cases hx
      exact cacheLookup_bound b _ c sc hc heq
  next heq =>
    split
    next hf => exact ⟨⟨hc, hfut, hnext⟩, by simp⟩
    next fid hf =>
      split_ifs with h2 h3 h4 ho
      · exact ⟨⟨hc, hfut, hnext⟩, by simp⟩
      · exact ⟨⟨hc, hfut, hnext⟩, by simp⟩
      · exact ⟨⟨hc, hfut, hnext⟩, by simp⟩
      · refine ⟨⟨hc, by simp, hnext⟩, ?_⟩
        intro x hx
        cases hx
        exact hfut fid hf
      · exact ⟨⟨hc, by simp, hnext⟩, by simp⟩

lemma taskBound_ensure (b : Nat) (chunks : List Chunk) (cur : Int) (d o : Nat → Bool)
    (s : SState) (h : TaskBound b s) :
    TaskBound b (ensureNextChunkPrefetch chunks cur d o s) := by
  have h1 := taskBound_collect b d o s h
  obtain ⟨hc, hfut, hnext⟩ := h1
  have hlaunch : TaskBound b (launchState (cur + 1) (collectPrefetchIfReady d o s)) := by
    refine ⟨hc, ?_, ?_⟩
    · intro fid hfid
      simp only [launchState] at hfid
      cases hfid
      exact hnext
    · simp only [launchState]
      omega
  simp only [ensureNextChunkPrefetch]
  by_cases hr : cur + 1 < 0 ∨ (chunks.length : Int) ≤ cur + 1
  · simpa only [if_pos hr] using h
  · simp only [if_neg hr]
    by_cases hcl : (cacheLookup (collectPrefetchIfReady d o s).prefetch_cache (cur + 1)).isSome
    · simpa only [if_pos hcl] using ⟨hc, hfut, hnext⟩
    · simp only [if_neg hcl]
      rcases hf : (collectPrefetchIfReady d o s).prefetch_future with _ | fid

      · exact hlaunch
      · by_cases h2 : (collectPrefetchIfReady d o s).prefetch_target_idx = some (cur + 1) ∧
            pyOrNeg1 (collectPrefetchIfReady d o s).prefetch_task_run_token
              = (collectPrefetchIfReady d o s).script_run_token
        · simpa only [if_pos h2] using ⟨hc, hfut, hnext⟩
        · simp only [if_neg h2]
          by_cases h3 : ¬d fid
          · simpa only [if_pos h3] using ⟨hc, hfut, hnext⟩
          · simpa only [if_neg h3] using hlaunch

lemma taskBound_step (b : Nat) (s : SState) (op : PrefetchOp) (h : TaskBound b s) :
    TaskBound b (stepOp s op).1 ∧ (∀ x, (stepOp s op).2 = some x → b ≤ x) := by
  cases op with
  | collect d o => exact ⟨taskBound_collect b d o s h, by simp [stepOp]⟩
  | take c w d o => exact taskBound_take b c w d o s h
  | ensure ch c d o => exact ⟨taskBound_ensure b ch c d o s h, by simp [stepOp]⟩
  | reset =>
    refine ⟨⟨?_, ?_, ?_⟩, ?_⟩
    · intro kv hkv
      simp [stepOp, resetSession, clearPrefetchBuffer] at hkv
    · intro fid hfid
      simp [stepOp, resetSession, clearPrefetchBuffer] at hfid
    · simpa [stepOp, resetSession, clearPrefetchBuffer] using h.2.2
    · intro x hx
      simp [stepOp] at hx

lemma taskBound_runOps (b : Nat) (s : SState) (ops : List PrefetchOp) (h : TaskBound b s) :
    TaskBound b (runOps s ops).1 ∧ ∀ x ∈ (runOps s ops).2, b ≤ x := by
  induction ops generalizing s with
  | nil => exact ⟨h, by simp [runOps]⟩
  | cons op rest ih =>
    obtain ⟨hstep, hout⟩ := taskBound_step b s op h
    obtain ⟨hrun, houts⟩ := ih (stepOp s op).1 hstep
    refine ⟨by simpa [runOps] using hrun, ?_⟩
    intro x hx
    simp only [runOps, List.mem_append] at hx
    rcases hx with hx | hx
    · rcases hres : (stepOp s op).2 with _ | y
      · rw [hres] at hx
        simp at hx
      · rw [hres] at hx
        simp at hx
        rw [hx]
        exact hout y hres
    · exact houts x hx

/-- C3: after `reset()` (which clears the prefetch slots and bumps the run
token), a task launched before the reset (ghost id below the reset-time
`next_task_id`) never appears in the prefetch cache and is never returned
by `take`, for any subsequent sequence of coordinator calls under any
completion interleaving. -/
theorem prefetch_reset_discards_stale (s : SState) (ops : List PrefetchOp) (tid : Nat)
    (h : tid < s.next_task_id) :
    tid ∉ (runOps (resetSession s) ops).2 ∧
      ∀ kv ∈ (runOps (resetSession s) ops).1.prefetch_cache, kv.2 ≠ tid := by
  have h0 : TaskBound s.next_task_id (resetSession s) := by
    refine ⟨?_, ?_, ?_⟩
    · intro kv hkv
      simp [resetSession, clearPrefetchBuffer] at hkv
    · intro fid hfid
      simp [resetSession, clearPrefetchBuffer] at hfid
    · simp [resetSession, clearPrefetchBuffer]
  obtain ⟨hb, hout⟩ := taskBound_runOps s.next_task_id (resetSession s) ops h0
  constructor
  · intro hmem
    have := hout tid hmem
    omega
  · intro kv hkv he
    have := hb.1 kv hkv
    omega

/-- C3 witness: a state with one task already launched (id 0); after reset,
a collect, a waiting take and an ensure never surface task 0. -/
theorem prefetch_reset_discards_stale_witness :
    (0 : Nat) < 1 ∧
      (0 ∉ (runOps (resetSession
          { prefetch_cache := [], prefetch_future := some 0,
            prefetch_target_idx := some 1, prefetch_task_run_token := some 0,
            script_run_token := 0, next_task_id := 1 })
          [PrefetchOp.collect (fun _ => true) (fun _ => true),
           PrefetchOp.ensure [⟨0, "a", none⟩, ⟨1, "b", none⟩] 0 (fun _ => true) (fun _ => true),
           PrefetchOp.take 1 true (fun _ => true) (fun _ => true)]).2 ∧
        ∀ kv ∈ (runOps (resetSession
          { prefetch_cache := [], prefetch_future := some 0,
            prefetch_target_idx := some 1, prefetch_task_run_token := some 0,
            script_run_token := 0, next_task_id := 1 })
          [PrefetchOp.collect (fun _ => true) (fun _ => true),
           PrefetchOp.ensure [⟨0, "a", none⟩, ⟨1, "b", none⟩] 0 (fun _ => true) (fun _ => true),
           PrefetchOp.take 1 true (fun _ => true) (fun _ => true)]).1.prefetch_cache,
          kv.2 ≠ 0) :=
  ⟨Nat.zero_lt_one,
    prefetch_reset_discards_stale
      { prefetch_cache := [], prefetch_future := some 0,
        prefetch_target_idx := some 1, prefetch_task_run_token := some 0,
        script_run_token := 0, next_task_id := 1 }
      [PrefetchOp.collect (fun _ => true) (fun _ => true),
       PrefetchOp.ensure [⟨0, "a", none⟩, ⟨1, "b", none⟩] 0 (fun _ => true) (fun _ => true),
       PrefetchOp.take 1 true (fun _ => true) (fun _ => true)]
      0 Nat.zero_lt_one⟩

/-! ### C5 -/

lemma collect_future_none (d o : Nat → Bool) (s : SState)
    (h : s.prefetch_future = none) : collectPrefetchIfReady d o s = s := by
  unfold collectPrefetchIfReady
  rw [h]

lemma collect_target_none (d o : Nat → Bool) (s : SState)
    (h : s.prefetch_target_idx = none) : collectPrefetchIfReady d o s = s := by
  unfold collectPrefetchIfReady
  rw [h]
  rcases hf : s.prefetch_future with _ | fid <;> rfl

lemma collect_notdone (d o : Nat → Bool) (s : SState) (fid : Nat)
    (hf : s.prefetch_future = some fid) (hd : d fid = false) :
    collectPrefetchIfReady d o s = s := by
  unfold collectPrefetchIfReady
  rw [hf]
  rcases ht : s.prefetch_target_idx with _ | tgt
  · rfl
  · simp [hd]

lemma collect_clears (d o : Nat → Bool) (s : SState) (fid : Nat) (tgt : Int)
    (hf : s.prefetch_future = some fid) (ht : s.prefetch_target_idx = some tgt)
    (hd : d fid = true) : (collectPrefetchIfReady d o s).prefetch_future = none := by
  unfold collectPrefetchIfReady
  rw [hf, ht]
  simp only [hd, if_true]
  by_cases ho : o fid
  · simp only [ho, if_true]
    split_ifs <;> rfl
  · simp only [ho, if_false]
    rfl

lemma collect_next (d o : Nat → Bool) (s : SState) :
    (collectPrefetchIfReady d o s).next_task_id = s.next_task_id := by
  unfold collectPrefetchIfReady
  rcases hf : s.prefetch_future with _ | fid
  · rfl
  · rcases ht : s.prefetch_target_idx with _ | tgt
    · rfl
    · by_cases hd : d fid
      · simp only [hd, if_true]
        by_cases ho : o fid
        · simp only [ho, if_true]
          split_ifs <;> rfl
        · simp only [ho, if_false]
          rfl
      · simp [hd]

lemma collect_token (d o : Nat → Bool) (s : SState) :
    (collectPrefetchIfReady d o s).script_run_token = s.script_run_token := by
  unfold collectPrefetchIfReady
  rcases hf : s.prefetch_future with _ | fid
  · rfl
  · rcases ht : s.prefetch_target_idx with _ | tgt
    · rfl
    · by_cases hd : d fid
      · simp only [hd, if_true]
        by_cases ho : o fid
        · simp only [ho, if_true]
          split_ifs <;> rfl
        · simp only [ho, if_false]
          rfl
      · simp [hd]

lemma collect_idem (d o : Nat → Bool) (s : SState) :
    collectPrefetchIfReady d o (collectPrefetchIfReady d o s)
      = collectPrefetchIfReady d o s := by
  rcases hf : s.prefetch_future with _ | fid
  · have h1 := collect_future_none d o s hf
    rw [h1, h1]
  · rcases ht : s.prefetch_target_idx with _ | tgt
    · have h1 := collect_target_none d o s ht
      rw [h1, h1]
    · by_cases hd : d fid
      · exact collect_future_none d o _ (collect_clears d o s fid tgt hf ht (by simpa using hd))
      · have h1 := collect_notdone d o s fid hf (by simpa using hd)
        rw [h1]
        exact h1

lemma ensure_launched (chunks : List Chunk) (cur : Int) (d o : Nat → Bool) (s1 : SState)
    (hr : ¬(cur + 1 < 0 ∨ (chunks.length : Int) ≤ cur + 1))
    (hcl : ¬(cacheLookup s1.prefetch_cache (cur + 1)).isSome = true)
    (hd : d s1.next_task_id = false) :
    ensureNextChunkPrefetch chunks cur d o (launchState (cur + 1) s1)
      = launchState (cur + 1) s1 := by
  have hLf : (launchState (cur + 1) s1).prefetch_future = some s1.next_task_id := rfl
  have hcolL : collectPrefetchIfReady d o (launchState (cur + 1) s1)
      = launchState (cur + 1) s1 :=
    collect_notdone d o _ _ hLf hd
  have hLcache : (launchState (cur + 1) s1).prefetch_cache = s1.prefetch_cache := rfl
  simp only [ensureNextChunkPrefetch, if_neg hr, hcolL, hLcache, if_neg hcl, hLf]
  by_cases hcond : (launchState (cur + 1) s1).prefetch_target_idx = some (cur + 1) ∧
      pyOrNeg1 (launchState (cur + 1) s1).prefetch_task_run_token
        = (launchState (cur + 1) s1).script_run_token
  · rw [if_pos hcond]
  · rw [if_neg hcond, if_pos (by simp [hd])]

lemma ensure_next_le (chunks : List Chunk) (cur : Int) (d o : Nat → Bool) (s : SState) :
    (ensureNextChunkPrefetch chunks cur d o s).next_task_id ≤ s.next_task_id + 1 := by
  have hcol := collect_next d o s
  simp only [ensureNextChunkPrefetch]
  split
  · omega
  · split
    · omega
    · split
      · split_ifs <;> first
          | omega
          | (simp only [launchState]; omega)
      · simp only [launchState]
        omega

/-- C5: with no state change between the calls (the same completion
snapshot, under which the task a call would launch is not yet done),
calling `_ensure_next_chunk_prefetch` twice with the same chunk list and
current index launches at most one background task — the second call is a
no-op (equal state), and the ghost task counter grows by at most one
across both calls. -/
theorem ensure_next_prefetch_idempotent (chunks : List Chunk) (cur : Int)
    (d o : Nat → Bool) (s : SState) (hfresh : d s.next_task_id = false) :
    ensureNextChunkPrefetch chunks cur d o (ensureNextChunkPrefetch chunks cur d o s)
        = ensureNextChunkPrefetch chunks cur d o s ∧
      (ensureNextChunkPrefetch chunks cur d o
          (ensureNextChunkPrefetch chunks cur d o s)).next_task_id
        ≤ s.next_task_id + 1 := by
  have hmain : ensureNextChunkPrefetch chunks cur d o
      (ensureNextChunkPrefetch chunks cur d o s) = ensureNextChunkPrefetch chunks cur d o s := by
    by_cases hr : cur + 1 < 0 ∨ (chunks.length : Int) ≤ cur + 1
    · have h1 : ensureNextChunkPrefetch chunks cur d o s = s := by
        simp only [ensureNextChunkPrefetch, if_pos hr]
      rw [h1]
      exact h1
    · have hcol1 : collectPrefetchIfReady d o (collectPrefetchIfReady d o s)
          = collectPrefetchIfReady d o s := collect_idem d o s
      by_cases hcl : (cacheLookup (collectPrefetchIfReady d o s).prefetch_cache
          (cur + 1)).isSome
      · have h1 : ensureNextChunkPrefetch chunks cur d o s = collectPrefetchIfReady d o s := by
          simp only [ensureNextChunkPrefetch, if_neg hr, if_pos hcl]
        rw [h1]
        simp only [ensureNextChunkPrefetch, if_neg hr, hcol1, if_pos hcl]
      · rcases hf : (collectPrefetchIfReady d o s).prefetch_future with _ | fid
        · -- no pending future after collect: the first call launches
          have h1 : ensureNextChunkPrefetch chunks cur d o s
              = launchState (cur + 1) (collectPrefetchIfReady d o s) := by
            simp only [ensureNextChunkPrefetch, if_neg hr, if_neg hcl, hf]
          rw [h1]
          exact ensure_launched chunks cur d o _ hr hcl
            (by rw [collect_next]; exact hfresh)
        · by_cases hcond : (collectPrefetchIfReady d o s).prefetch_target_idx
              = some (cur + 1) ∧
              pyOrNeg1 (collectPrefetchIfReady d o s).prefetch_task_run_token
                = (collectPrefetchIfReady d o s).script_run_token
          · -- already the pending target under the current run token
            have h1 : ensureNextChunkPrefetch chunks cur d o s
                = collectPrefetchIfReady d o s := by
              simp only [ensureNextChunkPrefetch, if_neg hr, if_neg hcl, hf, if_pos hcond]
            rw [h1]
            simp only [ensureNextChunkPrefetch, if_neg hr, hcol1, if_neg hcl, hf,
              if_pos hcond]
          · by_cases hd : d fid
            · -- a done but unconsumed future (only possible with no target):
              -- the first call launches
              have hnd : ¬(¬d fid = true) := by simp [hd]
              have h1 : ensureNextChunkPrefetch chunks cur d o s
                  = launchState (cur + 1) (collectPrefetchIfReady d o s) := by
                simp only [ensureNextChunkPrefetch, if_neg hr, if_neg hcl, hf,
                  if_neg hcond, if_neg hnd]
              rw [h1]
              exact ensure_launched chunks cur d o _ hr hcl
                (by rw [collect_next]; exact hfresh)
            · -- a still-running future for another target: both calls no-op
              have h1 : ensureNextChunkPrefetch chunks cur d o s
                  = collectPrefetchIfReady d o s := by
                simp only [ensureNextChunkPrefetch, if_neg hr, if_neg hcl, hf,
                  if_neg hcond, if_pos hd]
              rw [h1]
              simp only [ensureNextChunkPrefetch, if_neg hr, hcol1, if_neg hcl, hf,
                if_neg hcond, if_pos hd]
  refine ⟨hmain, ?_⟩
  rw [hmain]
  exact ensure_next_le chunks cur d o s

/-- C5 witness: an idle session (no pending future, empty cache) with two
chunks; the freshness hypothesis holds because no task is done. -/
theorem ensure_next_prefetch_idempotent_witness :
    (fun _ : Nat => false) 0 = false ∧
      (ensureNextChunkPrefetch [⟨0, "a", none⟩, ⟨1, "b", none⟩] 0
          (fun _ => false) (fun _ => true)
          (ensureNextChunkPrefetch [⟨0, "a", none⟩, ⟨1, "b", none⟩] 0
            (fun _ => false) (fun _ => true)
            { prefetch_cache := [], prefetch_future := none, prefetch_target_idx := none,
              prefetch_task_run_token := none, script_run_token := 0, next_task_id := 0 })
          = ensureNextChunkPrefetch [⟨0, "a", none⟩, ⟨1, "b", none⟩] 0
            (fun _ => false) (fun _ => true)
            { prefetch_cache := [], prefetch_future := none, prefetch_target_idx := none,
              prefetch_task_run_token := none, script_run_token := 0, next_task_id := 0 } ∧
        (ensureNextChunkPrefetch [⟨0, "a", none⟩, ⟨1, "b", none⟩] 0
            (fun _ => false) (fun _ => true)
            (ensureNextChunkPrefetch [⟨0, "a", none⟩, ⟨1, "b", none⟩] 0
              (fun _ => false) (fun _ => true)
              { prefetch_cache := [], prefetch_future := none, prefetch_target_idx := none,
                prefetch_task_run_token := none, script_run_token := 0,
                next_task_id := 0 })).next_task_id ≤ 0 + 1) :=
  ⟨rfl,
    ensure_next_prefetch_idempotent [⟨0, "a", none⟩, ⟨1, "b", none⟩] 0
      (fun _ => false) (fun _ => true)
      { prefetch_cache := [], prefetch_future := none, prefetch_target_idx := none,
        prefetch_task_run_token := none, script_run_token := 0, next_task_id := 0 }
      rfl⟩

end Paper2Gal
